import Mathlib

/-!
Verification of the session/ownership subsystem of the un-tie_code repository.

The Go code is embedded shallowly:
* Go maps become association lists over `String` keys; `m[k] = v` is modelled
  as erase-then-cons (`minsert`), `delete(m, k)` as `merase`, lookup as `mlookup`.
* Go struct assignment (`copy := *p`) copies every field by value.  Slice-typed
  fields (`Features []Feature`, the lists inside `TechStack`) copy only the
  slice header, so the copy and the original share one backing array.  A slice
  header is modelled as a `SliceRef` (an index into an explicit `Heap` of
  backing arrays); a `none` reference is Go's nil slice.  Struct copying is
  therefore the identity on the embedded record value — the shared reference is
  part of the value — and what a caller actually sees is recovered by
  `observeProject`, which dereferences every slice through the heap.
* `time.Time` values become `Nat` instants (seconds); `time.Now()` becomes an
  explicit `now` parameter.  `t1.After(t2)` is `t1 > t2`.
* A Go method that mutates its receiver and returns `error` becomes a function
  returning `Option RepoError × State`: the state component is the receiver's
  state when the method returns, so "the store is untouched" is a provable
  equation on the error paths.
-/

namespace UnTie

/-! ### Go map model -/

/-- Lookup in an association-list model of a Go map. -/
def mlookup {α : Type} : List (String × α) → String → Option α
  | [], _ => none
  | (k1, v) :: rest, k => if k1 = k then some v else mlookup rest k

/-- Go `delete(m, k)`: remove every binding of `k`. -/
def merase {α : Type} : List (String × α) → String → List (String × α)
  | [], _ => []
  | (k1, v) :: rest, k => if k1 = k then merase rest k else (k1, v) :: merase rest k

/-- Go `m[k] = v`: overwrite the binding of `k`. -/
def minsert {α : Type} (m : List (String × α)) (k : String) (v : α) : List (String × α) :=
  (k, v) :: merase m k

/-! ### Data model (src/api/models) -/

/-- Index of a slice backing array in the `Heap`; Go's nil slice is `none`
at use sites (`Option SliceRef`). -/
abbrev SliceRef := Nat

/-- FeatureImpl struct (models/project.go). -/
structure FeatureImpl where
  version : String
  status : String
  description : String
deriving DecidableEq

/-- Feature struct (models/project.go); `versions` is a slice header. -/
structure Feature where
  id : String
  name : String
  description : String
  versions : Option SliceRef
deriving DecidableEq

/-- TechStack struct (models/project.go); each field is a `[]string` header. -/
structure TechStack where
  frontend : Option SliceRef
  backend : Option SliceRef
  database : Option SliceRef
  hosting : Option SliceRef
  ci : Option SliceRef
  other : Option SliceRef
deriving DecidableEq

/-- The all-nil `TechStack{}` zero value. -/
def emptyTechStack : TechStack := ⟨none, none, none, none, none, none⟩

/-- Project struct (models/project.go).  `features` is the `Features []Feature`
slice header; timestamps are `Nat` instants. -/
structure Project where
  id : String
  name : String
  description : String
  createdAt : Nat
  updatedAt : Nat
  userID : String
  techStack : TechStack
  features : Option SliceRef
deriving DecidableEq

/-- User struct (models/user.go).  No slice fields, so a struct copy of a
`User` really is an independent record. -/
structure User where
  id : String
  email : String
  name : String
  role : String
  createdAt : Nat
  updatedAt : Nat
  lastLogin : Nat
deriving DecidableEq

/-- Error values used across the repositories and services: the named errors
of models/user.go plus the `errors.New` strings of the repositories and of
the auth service, one constructor per distinct error value. -/
inductive RepoError
  | projectNotFound
  | projectIDExists
  | userNotFound
  | emailAlreadyExists
  | userIDExists
  | invalidCredentials
  | invalidSession
  | sessionExpired
  | nameRequired
deriving DecidableEq

/-! ### Slice heap and observation -/

/-- Backing arrays for every slice reachable from stored or returned records. -/
structure Heap where
  featureArrs : List (List Feature)
  stringArrs : List (List String)
  implArrs : List (List FeatureImpl)
deriving DecidableEq

/-- Dereference a `[]Feature` header (nil and dangling read as empty). -/
def Heap.featuresAt (h : Heap) : Option SliceRef → List Feature
  | none => []
  | some r => (h.featureArrs.get? r).getD []

/-- Dereference a `[]string` header. -/
def Heap.stringsAt (h : Heap) : Option SliceRef → List String
  | none => []
  | some r => (h.stringArrs.get? r).getD []

/-- Dereference a `[]FeatureImpl` header. -/
def Heap.implsAt (h : Heap) : Option SliceRef → List FeatureImpl
  | none => []
  | some r => (h.implArrs.get? r).getD []

/-- Replace the element at index `i` of a list, if present. -/
def listModifyAt {α : Type} : List α → Nat → (α → α) → List α
  | [], _, _ => []
  | x :: xs, 0, f => f x :: xs
  | x :: xs, Nat.succ n, f => x :: listModifyAt xs n f

/-- The caller-side mutation `slice[i].Name = newName` performed through a
`[]Feature` header: it writes the backing array in place, so every other
slice header pointing at the same array sees the new value. -/
def Heap.mutateFeatureName (h : Heap) (r : Option SliceRef) (i : Nat) (newName : String) : Heap :=
  match r with
  | none => h
  | some idx =>
    let arr := (h.featureArrs.get? idx).getD []
    let arr1 := listModifyAt arr i (fun f => { f with name := newName })
    { h with featureArrs := h.featureArrs.set idx arr1 }

/-- A `Feature` with its `Versions` slice dereferenced. -/
structure ObservedFeature where
  id : String
  name : String
  description : String
  versions : List FeatureImpl
deriving DecidableEq

/-- A `TechStack` with every list dereferenced. -/
structure ObservedTechStack where
  frontend : List String
  backend : List String
  database : List String
  hosting : List String
  ci : List String
  other : List String
deriving DecidableEq

/-- A `Project` as a caller actually sees it: every slice dereferenced
through the heap.  Two stored states are "byte-for-byte" equal exactly when
their observations agree. -/
structure ObservedProject where
  id : String
  name : String
  description : String
  createdAt : Nat
  updatedAt : Nat
  userID : String
  techStack : ObservedTechStack
  features : List ObservedFeature
deriving DecidableEq

/-- Observe one feature. -/
def observeFeature (h : Heap) (f : Feature) : ObservedFeature :=
  ⟨f.id, f.name, f.description, h.implsAt f.versions⟩

/-- Observe a tech stack. -/
def observeTechStack (h : Heap) (t : TechStack) : ObservedTechStack :=
  ⟨h.stringsAt t.frontend, h.stringsAt t.backend, h.stringsAt t.database,
   h.stringsAt t.hosting, h.stringsAt t.ci, h.stringsAt t.other⟩

/-- Observe a project record under a heap. -/
def observeProject (h : Heap) (p : Project) : ObservedProject :=
  ⟨p.id, p.name, p.description, p.createdAt, p.updatedAt, p.userID,
   observeTechStack h p.techStack, (h.featuresAt p.features).map (observeFeature h)⟩

/-! ### MemoryProjectRepository (repositories/memory_repository.go)

The repository never dereferences a slice: `projectCopy := *project` copies
the record's fields (including its slice headers), which on the embedded
`Project` value is the identity.  No repository operation reads or writes the
`Heap`, so the heap is not a parameter here. -/

/-- Store of MemoryProjectRepository: `projects map[string]*models.Project`. -/
abbrev ProjectStore := List (String × Project)

/-- GetByID: lookup, `errors.New("project not found")` if absent, otherwise
return the struct copy `projectCopy := *project`. -/
def MemoryProjectRepository.GetByID (r : ProjectStore) (id : String) : Except RepoError Project :=
  match mlookup r id with
  | none => .error .projectNotFound
  | some project => .ok project

/-- Create: error if the id exists, otherwise store a struct copy. -/
def MemoryProjectRepository.Create (r : ProjectStore) (project : Project) :
    Option RepoError × ProjectStore :=
  if (mlookup r project.id).isSome then (some .projectIDExists, r)
  else (none, minsert r project.id project)

/-- Update: error if the id is absent, otherwise overwrite with a struct copy
of the supplied record. -/
def MemoryProjectRepository.Update (r : ProjectStore) (project : Project) :
    Option RepoError × ProjectStore :=
  if (mlookup r project.id).isNone then (some .projectNotFound, r)
  else (none, minsert r project.id project)

/-- Delete: error if the id is absent, otherwise remove the entry. -/
def MemoryProjectRepository.Delete (r : ProjectStore) (id : String) :
    Option RepoError × ProjectStore :=
  if (mlookup r id).isNone then (some .projectNotFound, r)
  else (none, merase r id)

/-- List: full scan keeping the caller's projects, a struct copy of each
(`projectCopy := *project`, so each returned record shares its slice
backing arrays with the stored one). -/
def MemoryProjectRepository.listForUser (r : ProjectStore) (userID : String) : List Project :=
  (r.filter (fun e => e.2.userID == userID)).map (fun e => e.2)

/-! ### MemoryUserRepository (repositories/memory_repository.go) -/

/-- The two indexes of MemoryUserRepository: `users map[string]*models.User`
(by id) and `byEmail map[string]*models.User`. -/
structure UserStore where
  users : List (String × User)
  byEmail : List (String × User)
deriving DecidableEq

/-- GetByID on the primary index; `models.ErrUserNotFound` if absent. -/
def MemoryUserRepository.GetByID (r : UserStore) (id : String) : Except RepoError User :=
  match mlookup r.users id with
  | none => .error .userNotFound
  | some user => .ok user

/-- GetByEmail on the email index; `models.ErrUserNotFound` if absent. -/
def MemoryUserRepository.GetByEmail (r : UserStore) (email : String) : Except RepoError User :=
  match mlookup r.byEmail email with
  | none => .error .userNotFound
  | some user => .ok user

/-- Create: id collision, then email collision, then insert a copy into both
indexes. -/
def MemoryUserRepository.Create (r : UserStore) (user : User) :
    Option RepoError × UserStore :=
  if (mlookup r.users user.id).isSome then (some .userIDExists, r)
  else if (mlookup r.byEmail user.email).isSome then (some .emailAlreadyExists, r)
  else (none, ⟨minsert r.users user.id user, minsert r.byEmail user.email user⟩)

/-- Update: `NotFound` if the id is absent.  If the email changed, fail with
`ErrEmailAlreadyExists` when the new email is already indexed (returning
before any mutation), otherwise remove the old email entry; in every
successful case both indexes are then overwritten with the new record. -/
def MemoryUserRepository.Update (r : UserStore) (user : User) :
    Option RepoError × UserStore :=
  match mlookup r.users user.id with
  | none => (some .userNotFound, r)
  | some existingUser =>
    if existingUser.email ≠ user.email then
      if (mlookup r.byEmail user.email).isSome then (some .emailAlreadyExists, r)
      else
        let byEmail1 := merase r.byEmail existingUser.email
        (none, ⟨minsert r.users user.id user, minsert byEmail1 user.email user⟩)
    else
      (none, ⟨minsert r.users user.id user, minsert r.byEmail user.email user⟩)

/-- Delete: remove the entry from both indexes; `NotFound` if absent. -/
def MemoryUserRepository.Delete (r : UserStore) (id : String) :
    Option RepoError × UserStore :=
  match mlookup r.users id with
  | none => (some .userNotFound, r)
  | some user => (none, ⟨merase r.users id, merase r.byEmail user.email⟩)

/-- NewUser (models/user.go): fresh record with role "user"; the generated id
and `time.Now()` are explicit parameters. -/
def NewUser (email name : String) (id : String) (now : Nat) : User :=
  ⟨id, email, name, "user", now, now, 0⟩

/-- NewMemoryUserRepository: empty indexes seeded with the development user
`test@untie.me` whose role is set to "admin" before `Create`. -/
def NewMemoryUserRepository (id : String) (now : Nat) : UserStore :=
  let testUser := { NewUser "test@untie.me" "Test User" id now with role := "admin" }
  (MemoryUserRepository.Create ⟨[], []⟩ testUser).2

/-! ### AuthServiceImpl (services/auth_service.go) -/

/-- sessionData: `{userID, expiresAt, lastActive}`. -/
structure SessionData where
  userID : String
  expiresAt : Nat
  lastActive : Nat
deriving DecidableEq

/-- The session registry `sessions map[string]sessionData` of AuthServiceImpl.
The struct has no mutex field; see the lock-trace model below. -/
abbrev Sessions := List (String × SessionData)

/-- Authenticate: GetByEmail, collapsing `ErrUserNotFound` to
`ErrInvalidCredentials`; an unconditional-success branch for the hardcoded
email "test@untie.me"; otherwise the stub credential check
`password == "test-password"`.  Both success branches stamp `LastLogin = now`
and call `userRepo.Update`, proceeding even if that update fails. -/
def AuthServiceImpl.Authenticate (userRepo : UserStore) (email password : String) (now : Nat) :
    Except RepoError User × UserStore :=
  match MemoryUserRepository.GetByEmail userRepo email with
  | .error e =>
    if e = .userNotFound then (.error .invalidCredentials, userRepo)
    else (.error e, userRepo)
  | .ok user =>
    if email = "test@untie.me" then
      let user := { user with lastLogin := now }
      (.ok user, (MemoryUserRepository.Update userRepo user).2)
    else if password = "test-password" then
      let user := { user with lastLogin := now }
      (.ok user, (MemoryUserRepository.Update userRepo user).2)
    else (.error .invalidCredentials, userRepo)

/-- VerifySession: unknown token fails with `errors.New("invalid session")`;
`time.Now().After(expiresAt)` (that is, `now > expiresAt`) fails with
"session expired" and deletes the entry; otherwise the user is looked up
fresh via `userRepo.GetByID` (its error propagates, the entry untouched) and
on success `lastActive` is set to `now`. -/
def AuthServiceImpl.VerifySession (sessions : Sessions) (userRepo : UserStore)
    (sessionToken : String) (now : Nat) : Except RepoError User × Sessions :=
  match mlookup sessions sessionToken with
  | none => (.error .invalidSession, sessions)
  | some session =>
    if now > session.expiresAt then
      (.error .sessionExpired, merase sessions sessionToken)
    else
      match MemoryUserRepository.GetByID userRepo session.userID with
      | .error e => (.error e, sessions)
      | .ok user =>
        (.ok user, minsert sessions sessionToken { session with lastActive := now })

/-- GenerateSessionToken: token `fmt.Sprintf("session-%d-%s", now, user.ID)`,
expiry fixed at `now + 24h`; the function takes no rememberMe flag. -/
def AuthServiceImpl.GenerateSessionToken (sessions : Sessions) (user : User) (now : Nat) :
    String × Sessions :=
  let tokenValue := "session-" ++ toString now ++ "-" ++ user.id
  let expiresAt := now + 24 * 3600
  (tokenValue, minsert sessions tokenValue ⟨user.id, expiresAt, now⟩)

/-- InvalidateSession: absence is not an error; otherwise delete the entry. -/
def AuthServiceImpl.InvalidateSession (sessions : Sessions) (sessionToken : String) : Sessions :=
  if (mlookup sessions sessionToken).isNone then sessions
  else merase sessions sessionToken

/-! ### ProjectServiceImpl (services/project_service.go) -/

/-- GetProject: delegate to the repository (the service only wraps the error
message, which does not change the error outcome). -/
def ProjectServiceImpl.GetProject (repo : ProjectStore) (id : String) : Except RepoError Project :=
  MemoryProjectRepository.GetByID repo id

/-- UpdateProject: fetch the existing record (error if absent), reject an
empty name, preserve `CreatedAt` from the existing record, stamp
`UpdatedAt = now`, then `repo.Update` with the supplied record — including
its `UserID` field, which is NOT overwritten from the existing record. -/
def ProjectServiceImpl.UpdateProject (repo : ProjectStore) (project : Project) (now : Nat) :
    Option RepoError × ProjectStore :=
  match MemoryProjectRepository.GetByID repo project.id with
  | .error e => (some e, repo)
  | .ok existingProject =>
    if project.name = "" then (some .nameRequired, repo)
    else
      let project := { project with createdAt := existingProject.createdAt, updatedAt := now }
      MemoryProjectRepository.Update repo project

/-- DeleteProject: verify existence, then `repo.Delete`. -/
def ProjectServiceImpl.DeleteProject (repo : ProjectStore) (id : String) :
    Option RepoError × ProjectStore :=
  match MemoryProjectRepository.GetByID repo id with
  | .error e => (some e, repo)
  | .ok _ => MemoryProjectRepository.Delete repo id

/-! ### Cookies, SessionMiddleware (middleware/auth.go) and the Login handlers

The repository contains two versions of the handlers package.  `Handler.Login`
below embeds the version that sets the cookie named "session"
(src/unnamed/part_003); `HandlerV2.Login` embeds the version that sets
"session_token" (src/unnamed/part_004).  `SessionMiddleware` reads the cookie
named "session_token". -/

/-- Go's `strings.TrimSpace`: drop leading and trailing whitespace. -/
def trimSpace (s : String) : String :=
  String.mk (((s.data.dropWhile Char.isWhitespace).reverse.dropWhile Char.isWhitespace).reverse)

/-- The cookies carried by a request, name to value. -/
abbrev CookieJar := List (String × String)

/-- Gin's `c.Cookie(name)`. -/
def getCookie (req : CookieJar) (name : String) : Option String :=
  mlookup req name

/-- The cookie name SessionMiddleware reads: `c.Cookie("session_token")`. -/
def SessionMiddleware.cookieName : String := "session_token"

/-- Result of the session middleware: the resolved identity stored in the
request context (`c.Set("user", ...)` / `c.Set("authenticated", ...)`). -/
inductive AuthContext
  | anonymous
  | authenticated (user : User)
deriving DecidableEq

/-- SessionMiddleware: read the "session_token" cookie; absent, or
`VerifySession` failing, leaves the caller anonymous; otherwise the verified
user is recorded in the context. -/
def SessionMiddleware.run (sessions : Sessions) (userRepo : UserStore)
    (req : CookieJar) (now : Nat) : AuthContext × Sessions :=
  match getCookie req SessionMiddleware.cookieName with
  | none => (.anonymous, sessions)
  | some sessionToken =>
    match AuthServiceImpl.VerifySession sessions userRepo sessionToken now with
    | (.error _, sessions1) => (.anonymous, sessions1)
    | (.ok user, sessions1) => (.authenticated user, sessions1)

/-- A `c.SetCookie(name, value, maxAge, ...)` call. -/
structure SetCookie where
  name : String
  value : String
  maxAge : Nat
deriving DecidableEq

/-- Login handler of src/unnamed/part_003: trim-validate the form fields,
authenticate, generate a session token, then set the cookie named "session"
with `maxAge` 1 hour, or 7 days when the remember-me box was checked.  The
rememberMe flag reaches only the cookie, never `GenerateSessionToken`.
Returns the session cookie set (none on failure), the session registry and
the user store after the call. -/
def Handler.Login (sessions : Sessions) (userRepo : UserStore)
    (email password : String) (rememberMe : Bool) (now : Nat) :
    Option SetCookie × Sessions × UserStore :=
  if trimSpace email = "" ∨ trimSpace password = "" then (none, sessions, userRepo)
  else
    match AuthServiceImpl.Authenticate userRepo email password now with
    | (.error _, userRepo1) => (none, sessions, userRepo1)
    | (.ok user, userRepo1) =>
      let gen := AuthServiceImpl.GenerateSessionToken sessions user now
      let maxAge : Nat := if rememberMe then 7 * 24 * 3600 else 3600
      (some ⟨"session", gen.1, maxAge⟩, gen.2, userRepo1)

/-- Login handler of src/unnamed/part_004: validate the form fields,
authenticate, generate a session token, then set the cookie named
"session_token" with `maxAge` 24 hours, or 30 days when remember-me was
checked.  As above, rememberMe reaches only the cookie. -/
def HandlerV2.Login (sessions : Sessions) (userRepo : UserStore)
    (email password : String) (rememberMe : Bool) (now : Nat) :
    Option SetCookie × Sessions × UserStore :=
  if email = "" ∨ password = "" then (none, sessions, userRepo)
  else
    match AuthServiceImpl.Authenticate userRepo email password now with
    | (.error _, userRepo1) => (none, sessions, userRepo1)
    | (.ok user, userRepo1) =>
      let gen := AuthServiceImpl.GenerateSessionToken sessions user now
      let maxAge : Nat := if rememberMe then 60 * 60 * 24 * 30 else 60 * 60 * 24
      (some ⟨"session_token", gen.1, maxAge⟩, gen.2, userRepo1)

/-! ### API project handlers (src/unnamed/part_003) -/

/-- The JSON body accepted by APIUpdateProject (name, description). -/
structure UpdateData where
  name : String
  description : String
deriving DecidableEq

/-- APIUpdateProject: fetch the project (404 if absent), verify ownership
BEFORE parsing the body or touching the store (403 on mismatch), then merge
the non-empty fields of the body into the fetched copy and delegate to
`ProjectServiceImpl.UpdateProject`.  Returns the HTTP status and the project
store after the call. -/
def Handler.APIUpdateProject (repo : ProjectStore) (user : User) (id : String)
    (body : Option UpdateData) (now : Nat) : Nat × ProjectStore :=
  match ProjectServiceImpl.GetProject repo id with
  | .error _ => (404, repo)
  | .ok project =>
    if project.userID ≠ user.id then (403, repo)
    else
      match body with
      | none => (400, repo)
      | some updateData =>
        let project1 := { project with
          name := if updateData.name ≠ "" then updateData.name else project.name,
          description :=
            if updateData.description ≠ "" then updateData.description
            else project.description }
        let res := ProjectServiceImpl.UpdateProject repo project1 now
        match res.1 with
        | some _ => (500, res.2)
        | none => (200, res.2)

/-- APIDeleteProject: fetch the project (404 if absent), verify ownership
before deleting (403 on mismatch), then delegate to
`ProjectServiceImpl.DeleteProject`. -/
def Handler.APIDeleteProject (repo : ProjectStore) (user : User) (id : String) :
    Nat × ProjectStore :=
  match ProjectServiceImpl.GetProject repo id with
  | .error _ => (404, repo)
  | .ok project =>
    if project.userID ≠ user.id then (403, repo)
    else
      let res := ProjectServiceImpl.DeleteProject repo id
      match res.1 with
      | some _ => (500, res.2)
      | none => (200, res.2)

/-! ### Lock-usage traces

The synchronization structure of each method, read off its body: which
mutex operations it performs and where it touches its shared map.
`MemoryProjectRepository` and `MemoryUserRepository` each own a
`sync.RWMutex` and bracket every map access with it.  `AuthServiceImpl` has
no mutex field at all, so its three session-map operations perform their
map accesses with no lock event around them. -/

/-- One synchronization-relevant event of a method body. -/
inductive LockEv
  | lockAcquire
  | lockRelease
  | rlockAcquire
  | rlockRelease
  | mapAccess
deriving DecidableEq

/-- GetByID: `RLock; read projects; RUnlock`. -/
def projectGetByIDTrace : List LockEv := [.rlockAcquire, .mapAccess, .rlockRelease]

/-- Update: `Lock; read projects; write projects; Unlock`. -/
def projectUpdateTrace : List LockEv := [.lockAcquire, .mapAccess, .mapAccess, .lockRelease]

/-- MemoryUserRepository.Update: `Lock;` read users; read byEmail; delete
byEmail; write users; write byEmail; `Unlock`. -/
def userUpdateTrace : List LockEv :=
  [.lockAcquire, .mapAccess, .mapAccess, .mapAccess, .mapAccess, .mapAccess, .lockRelease]

/-- VerifySession: read `s.sessions`; delete or write `s.sessions`.  The
struct has no mutex, so no lock event occurs. -/
def verifySessionTrace : List LockEv := [.mapAccess, .mapAccess]

/-- GenerateSessionToken: write `s.sessions`, with no lock event. -/
def generateSessionTokenTrace : List LockEv := [.mapAccess]

/-- InvalidateSession: read `s.sessions`; delete `s.sessions`; no lock
event. -/
def invalidateSessionTrace : List LockEv := [.mapAccess, .mapAccess]

/-- Check that every map access in the trace happens while the lock depth is
positive. -/
def accessesLocked : List LockEv → Nat → Bool
  | [], _ => true
  | LockEv.lockAcquire :: rest, d => accessesLocked rest (d + 1)
  | LockEv.rlockAcquire :: rest, d => accessesLocked rest (d + 1)
  | LockEv.lockRelease :: rest, d => accessesLocked rest (d - 1)
  | LockEv.rlockRelease :: rest, d => accessesLocked rest (d - 1)
  | LockEv.mapAccess :: rest, d => decide (0 < d) && accessesLocked rest d

/-- A method body accesses its shared map only under a held lock. -/
def underLock (t : List LockEv) : Bool := accessesLocked t 0

/-! ### Concrete fixtures used by counterexamples and witnesses -/

/-- The seeded development user of NewMemoryUserRepository with id "u1"
created at time 0. -/
def userTest : User := ⟨"u1", "test@untie.me", "Test User", "admin", 0, 0, 0⟩

/-- A user store holding only the seeded development user. -/
def repo0 : UserStore := NewMemoryUserRepository "u1" 0

/-- A feature stored in heap cell 0. -/
def feat0 : Feature := ⟨"f1", "Auth", "login feature", none⟩

/-- Heap whose cell 0 is the backing array of `proj0`'s Features slice. -/
def heap0 : Heap := ⟨[[feat0]], [], []⟩

/-- A project owned by "A" whose Features slice points at heap cell 0. -/
def proj0 : Project := ⟨"p1", "Alpha", "demo", 0, 0, "A", emptyTechStack, some 0⟩

/-- A project store created by `Create` from `proj0`. -/
def store0 : ProjectStore := (MemoryProjectRepository.Create [] proj0).2

/-- A project owned by "A" with no slices, for the update claims. -/
def projA : Project := ⟨"p1", "Alpha", "demo", 0, 0, "A", emptyTechStack, none⟩

/-- A store holding only `projA`. -/
def repoA : ProjectStore := [("p1", projA)]

/-- An update record for project "p1" carrying owner "B" instead of "A". -/
def suppliedB : Project := ⟨"p1", "Alpha2", "demo2", 99, 99, "B", emptyTechStack, none⟩

/-- A caller distinct from the owner "A". -/
def userB : User := ⟨"B", "b@x", "Bob", "user", 0, 0, 0⟩

/-- Users for the email-index claims. -/
def alice : User := ⟨"a1", "alice@x", "Alice", "user", 0, 0, 0⟩

/-- Bob, the second user of the email-index fixtures. -/
def bob : User := ⟨"b1", "bob@x", "Bob", "user", 0, 0, 0⟩

/-- A user store holding alice and bob in both indexes. -/
def storeAB : UserStore :=
  ⟨[("a1", alice), ("b1", bob)], [("alice@x", alice), ("bob@x", bob)]⟩

/-- A session registry holding one token "t" for "u1" expiring at 100. -/
def sessions100 : Sessions := [("t", ⟨"u1", 100, 0⟩)]

/-- A part_003 login of the development user at time 0 without remember-me. -/
def loginRun : Option SetCookie × Sessions × UserStore :=
  Handler.Login [] repo0 "test@untie.me" "pw" false 0

/-- The same login with remember-me checked. -/
def loginRemember : Option SetCookie × Sessions × UserStore :=
  Handler.Login [] repo0 "test@untie.me" "pw" true 0

/-! ### Map lemmas -/

theorem mlookup_minsert_self {α : Type} (m : List (String × α)) (k : String) (v : α) :
    mlookup (minsert m k v) k = some v := by
  simp [minsert, mlookup]

theorem mlookup_merase_self {α : Type} (m : List (String × α)) (k : String) :
    mlookup (merase m k) k = none := by
  induction m with
  | nil => rfl
  | cons e rest ih =>
    obtain ⟨k1, v⟩ := e
    by_cases h : k1 = k
    · simpa [merase, h] using ih
    · simpa [merase, mlookup, h] using ih

theorem mlookup_merase_ne {α : Type} (m : List (String × α)) (k k2 : String) (h : k2 ≠ k) :
    mlookup (merase m k) k2 = mlookup m k2 := by
  induction m with
  | nil => rfl
  | cons e rest ih =>
    obtain ⟨k1, v⟩ := e
    have h0 : k ≠ k2 := fun hc => h hc.symm
    by_cases h1 : k1 = k
    · simp [merase, mlookup, h1, h0, ih]
    · by_cases h2 : k1 = k2
      · simp [merase, mlookup, h1, h2, h]
      · simp [merase, mlookup, h1, h2, ih]

theorem mlookup_minsert_ne {α : Type} (m : List (String × α)) (k k2 : String) (v : α)
    (h : k2 ≠ k) : mlookup (minsert m k v) k2 = mlookup m k2 := by
  have h1 : k ≠ k2 := fun hc => h hc.symm
  simp [minsert, mlookup, h1, mlookup_merase_ne m k k2 h]

/-! ### C1 — ownership check precedes any mutation in the API handlers -/

/-- C1: for every stored project whose owner differs from the caller's
resolved identity, APIUpdateProject and APIDeleteProject answer 403
Forbidden and return the project store exactly as it was: the ownership
check runs before the body is parsed and before the service or repository
is invoked, so the forbidden path performs no store operation at all (and
no slice backing array is touched, since nothing on this path writes the
heap). -/
theorem apiMutations_forbidden_untouched
    (repo : ProjectStore) (caller : User) (id : String) (body : Option UpdateData)
    (now : Nat) (p : Project)
    (hstored : mlookup repo id = some p)
    (hdiff : p.userID ≠ caller.id) :
    Handler.APIUpdateProject repo caller id body now = (403, repo) ∧
    Handler.APIDeleteProject repo caller id = (403, repo) := by
  constructor
  · simp [Handler.APIUpdateProject, ProjectServiceImpl.GetProject,
      MemoryProjectRepository.GetByID, hstored, hdiff]
  · simp [Handler.APIDeleteProject, ProjectServiceImpl.GetProject,
      MemoryProjectRepository.GetByID, hstored, hdiff]

/-- Witness for C1 at a concrete store: caller "B" against the project of
owner "A". -/
theorem apiMutations_forbidden_untouched_witness :
    Handler.APIUpdateProject repoA userB "p1" (some ⟨"X", "Y"⟩) 5 = (403, repoA) ∧
    Handler.APIDeleteProject repoA userB "p1" = (403, repoA) :=
  apiMutations_forbidden_untouched repoA userB "p1" (some ⟨"X", "Y"⟩) 5 projA rfl
    (by decide)

/-! ### C2 — credential-failure collapse, and the development bypass -/

/-- C2 counterexample: in the seeded store, the user `test@untie.me` exists
and the supplied password "wrong-password" fails the credential check
(`password == "test-password"`), yet Authenticate succeeds — the hardcoded
development branch accepts any password for that email, refuting the claim
that authentication always fails with InvalidCredentials when the
credential check fails. -/
theorem authenticate_devBypass_cex :
    "wrong-password" ≠ "test-password" ∧
    (AuthServiceImpl.Authenticate repo0 "test@untie.me" "wrong-password" 7).1 =
      .ok { userTest with lastLogin := 7 } := by
  exact ⟨by decide, rfl⟩

/-- C2 (amended): outside the hardcoded development email "test@untie.me",
the two failure causes are indistinguishable — an unknown email and a wrong
password both produce the identical result
`(.error .invalidCredentials, store unchanged)`. -/
theorem authenticate_failure_collapse
    (userRepo : UserStore) (email password : String) (now : Nat) :
    (MemoryUserRepository.GetByEmail userRepo email = .error .userNotFound →
      AuthServiceImpl.Authenticate userRepo email password now =
        (.error .invalidCredentials, userRepo)) ∧
    (∀ u, MemoryUserRepository.GetByEmail userRepo email = .ok u →
      email ≠ "test@untie.me" → password ≠ "test-password" →
      AuthServiceImpl.Authenticate userRepo email password now =
        (.error .invalidCredentials, userRepo)) := by
  constructor
  · intro h
    simp [AuthServiceImpl.Authenticate, h]
  · intro u h hemail hpw
    simp [AuthServiceImpl.Authenticate, h, hemail, hpw]

/-- Witness for C2's amended theorem: an unknown email and a wrong password
against an existing ordinary user produce the same error value. -/
theorem authenticate_failure_collapse_witness :
    AuthServiceImpl.Authenticate repo0 "ghost@x" "pw" 3 =
      (.error .invalidCredentials, repo0) ∧
    AuthServiceImpl.Authenticate storeAB "alice@x" "nope" 3 =
      (.error .invalidCredentials, storeAB) :=
  ⟨(authenticate_failure_collapse repo0 "ghost@x" "pw" 3).1 rfl,
   (authenticate_failure_collapse storeAB "alice@x" "nope" 3).2 alice rfl
     (by decide) (by decide)⟩

/-! ### C3 — the "defensive copy" is a shallow struct copy -/

/-- C3 (code bug witnessed): GetByID returns the struct copy `proj0`, whose
`Features` slice header points at the same backing array (heap cell 0) as
the stored record.  The caller-side mutation
`returned.Features[0].Name = "HACKED"` writes that shared array, and a
subsequent GetByID of the same store observes the mutated name — the
"copy to prevent external modification" does not prevent modification
through slice-typed fields. -/
theorem getByID_sharedSlice_bug :
    MemoryProjectRepository.GetByID store0 "p1" = .ok proj0 ∧
    (MemoryProjectRepository.GetByID store0 "p1").map
      (fun p => (observeProject heap0 p).features.map ObservedFeature.name) =
      .ok ["Auth"] ∧
    (MemoryProjectRepository.GetByID store0 "p1").map
      (fun p =>
        (observeProject (heap0.mutateFeatureName proj0.features 0 "HACKED") p).features.map
          ObservedFeature.name) = .ok ["HACKED"] := by
  exact ⟨rfl, rfl, rfl⟩

/-! ### C4 — the service update stores the supplied owner identifier -/

/-- C4 counterexample: the store holds project "p1" owned by "A"; a service
update whose record carries owner "B" succeeds and leaves the stored owner
equal to "B", not "A" — the owner identifier set at creation DOES change
through the service/repository update path. -/
theorem updateProject_ownerOverwrite_cex :
    projA.userID = "A" ∧
    (ProjectServiceImpl.UpdateProject repoA suppliedB 5).1 = none ∧
    (mlookup (ProjectServiceImpl.UpdateProject repoA suppliedB 5).2 "p1").map
      Project.userID = some "B" := by
  exact ⟨rfl, rfl, rfl⟩

/-- C4 (amended): on every successful service update, the stored record is
the supplied record with only `CreatedAt` preserved from the existing entry
and `UpdatedAt` stamped — in particular the stored owner identifier equals
the one the caller supplied, whatever was stored before. -/
theorem updateProject_stores_supplied_record
    (repo : ProjectStore) (project existing : Project) (now : Nat)
    (hstored : mlookup repo project.id = some existing)
    (hname : project.name ≠ "") :
    ProjectServiceImpl.UpdateProject repo project now =
      (none, minsert repo project.id
        { project with createdAt := existing.createdAt, updatedAt := now }) ∧
    (mlookup (ProjectServiceImpl.UpdateProject repo project now).2 project.id).map
      Project.userID = some project.userID := by
  have h1 : ProjectServiceImpl.UpdateProject repo project now =
      (none, minsert repo project.id
        { project with createdAt := existing.createdAt, updatedAt := now }) := by
    simp [ProjectServiceImpl.UpdateProject, MemoryProjectRepository.GetByID, hstored,
      hname, MemoryProjectRepository.Update]
  refine ⟨h1, ?_⟩
  rw [h1]
  simp [mlookup_minsert_self]

/-- Witness for C4's amended theorem at the concrete store of the
counterexample. -/
theorem updateProject_stores_supplied_record_witness :
    ProjectServiceImpl.UpdateProject repoA suppliedB 5 =
      (none, minsert repoA suppliedB.id
        { suppliedB with createdAt := projA.createdAt, updatedAt := 5 }) ∧
    (mlookup (ProjectServiceImpl.UpdateProject repoA suppliedB 5).2 suppliedB.id).map
      Project.userID = some suppliedB.userID :=
  updateProject_stores_supplied_record repoA suppliedB projA 5 rfl (by decide)

/-! ### C5 — the session cookie name is not uniform across the program -/

/-- C5 counterexample: the part_003 Login sets the freshly issued (and live)
token under the cookie name "session", but SessionMiddleware reads
"session_token"; on the very next request carrying exactly the cookie that
Login set, the middleware resolves the caller as anonymous. -/
theorem sessionCookieName_mismatch_cex :
    loginRun.1 = some ⟨"session", "session-0-u1", 3600⟩ ∧
    (mlookup loginRun.2.1 "session-0-u1").isSome = true ∧
    SessionMiddleware.run loginRun.2.1 loginRun.2.2 [("session", "session-0-u1")] 1 =
      (.anonymous, loginRun.2.1) := by
  exact ⟨rfl, rfl, rfl⟩

/-- C5 (amended): the part_004 Login stores the token under "session_token",
the exact name SessionMiddleware reads, so its cookie is found on the next
request and names a live registry entry; the part_003 Login stores it under
"session", which the middleware never reads. -/
theorem sessionCookie_v2_matches_middleware
    (sessions : Sessions) (userRepo : UserStore) (email password : String)
    (rememberMe : Bool) (now : Nat) :
    (∀ c rest,
      HandlerV2.Login sessions userRepo email password rememberMe now = (some c, rest) →
      c.name = SessionMiddleware.cookieName ∧
      getCookie [(c.name, c.value)] SessionMiddleware.cookieName = some c.value ∧
      (mlookup rest.1 c.value).isSome = true) ∧
    (∀ c rest,
      Handler.Login sessions userRepo email password rememberMe now = (some c, rest) →
      c.name = "session" ∧
      getCookie [(c.name, c.value)] SessionMiddleware.cookieName = none) := by
  constructor
  · intro c rest h
    by_cases hv : email = "" ∨ password = ""
    · simp [HandlerV2.Login, hv] at h
    · rcases hA : AuthServiceImpl.Authenticate userRepo email password now with ⟨res, urepo1⟩
      cases res with
      | error e => simp [HandlerV2.Login, hv, hA] at h
      | ok user =>
        simp [HandlerV2.Login, hv, hA] at h
        obtain ⟨hc, hrest⟩ := h
        subst hc
        subst hrest
        refine ⟨rfl, ?_, ?_⟩
        · simp [getCookie, mlookup, SessionMiddleware.cookieName]
        · simp [AuthServiceImpl.GenerateSessionToken, mlookup_minsert_self]
  · intro c rest h
    by_cases hv : trimSpace email = "" ∨ trimSpace password = ""
    · simp [Handler.Login, hv] at h
    · rcases hA : AuthServiceImpl.Authenticate userRepo email password now with ⟨res, urepo1⟩
      cases res with
      | error e => simp [Handler.Login, hv, hA] at h
      | ok user =>
        simp [Handler.Login, hv, hA] at h
        obtain ⟨hc, hrest⟩ := h
        subst hc
        refine ⟨rfl, ?_⟩
        simp [getCookie, mlookup, SessionMiddleware.cookieName]

/-- Witness for C5's amended theorem: the development user's login through
each handler version, with the middleware's lookup evaluated on the cookie
each one sets. -/
theorem sessionCookie_v2_matches_middleware_witness :
    getCookie [("session_token", "session-0-u1")] SessionMiddleware.cookieName =
      some "session-0-u1" ∧
    getCookie [("session", "session-0-u1")] SessionMiddleware.cookieName = none := by
  have h := sessionCookie_v2_matches_middleware [] repo0 "test@untie.me" "x" false 0
  have h1 := h.1 ⟨"session_token", "session-0-u1", 86400⟩
    ([("session-0-u1", ⟨"u1", 86400, 0⟩)], repo0) rfl
  have h2 := h.2 ⟨"session", "session-0-u1", 3600⟩
    ([("session-0-u1", ⟨"u1", 86400, 0⟩)], repo0) rfl
  exact ⟨h1.2.1, h2.2⟩

/-! ### C6 — expiry is checked strictly, and expired entries are purged -/

/-- C6 counterexample: at exactly the stored expiry instant
(`now = expiry = 100`) verification SUCCEEDS — `time.Now().After(expiresAt)`
is a strict comparison — and `lastActive` is updated, refuting the claim
that `now = expiry` fails. -/
theorem verifySession_atExpiryInstant_cex :
    (AuthServiceImpl.VerifySession sessions100 repo0 "t" 100).1 = .ok userTest ∧
    mlookup (AuthServiceImpl.VerifySession sessions100 repo0 "t" 100).2 "t" =
      some ⟨"u1", 100, 100⟩ := by
  exact ⟨rfl, rfl⟩

/-- C6 (amended): a session fails as expired exactly when `now > expiry`
(not `now ≥ expiry`): on `now > expiry` verification fails with the
session-expired outcome and removes the entry, after which every later
verify of that token fails with the unknown-session outcome; on
`now ≤ expiry` — including `now = expiry` — the expiry branch is not taken,
and with the owner still present verification succeeds with
`lastActive = now`. -/
theorem verifySession_expiry_boundary
    (sessions : Sessions) (userRepo : UserStore) (token : String)
    (sess : SessionData) (now : Nat)
    (hs : mlookup sessions token = some sess) :
    (now > sess.expiresAt →
      AuthServiceImpl.VerifySession sessions userRepo token now =
        (.error .sessionExpired, merase sessions token) ∧
      ∀ userRepo2 now2,
        (AuthServiceImpl.VerifySession (merase sessions token) userRepo2 token now2).1 =
          .error .invalidSession) ∧
    (now ≤ sess.expiresAt →
      ∀ u, MemoryUserRepository.GetByID userRepo sess.userID = .ok u →
      AuthServiceImpl.VerifySession sessions userRepo token now =
        (.ok u, minsert sessions token { sess with lastActive := now })) := by
  constructor
  · intro hexp
    constructor
    · simp [AuthServiceImpl.VerifySession, hs, hexp]
    · intro userRepo2 now2
      simp [AuthServiceImpl.VerifySession, mlookup_merase_self]
  · intro hlive u hu
    have hnot : ¬ now > sess.expiresAt := Nat.not_lt.mpr hlive
    simp [AuthServiceImpl.VerifySession, hs, hnot, hu]

/-- Witness for C6's amended theorem: one instant past expiry the entry is
removed and the token is dead for good; before expiry verification succeeds
and refreshes `lastActive`. -/
theorem verifySession_expiry_boundary_witness :
    AuthServiceImpl.VerifySession sessions100 repo0 "t" 101 =
      (.error .sessionExpired, merase sessions100 "t") ∧
    (AuthServiceImpl.VerifySession (merase sessions100 "t") repo0 "t" 500).1 =
      .error .invalidSession ∧
    AuthServiceImpl.VerifySession sessions100 repo0 "t" 50 =
      (.ok userTest, minsert sessions100 "t" ⟨"u1", 100, 50⟩) := by
  have h := verifySession_expiry_boundary sessions100 repo0 "t" ⟨"u1", 100, 0⟩ 101 rfl
  have h2 := verifySession_expiry_boundary sessions100 repo0 "t" ⟨"u1", 100, 0⟩ 50 rfl
  exact ⟨(h.1 (by decide)).1, (h.1 (by decide)).2 repo0 500,
    h2.2 (by decide) userTest rfl⟩

/-! ### C7 — the registry expiry ignores rememberMe -/

/-- C7 counterexample: logging in the same user at the same instant with
remember-me checked and unchecked stores the SAME registry expiry
(`now + 24h = 86400`) — `GenerateSessionToken` takes no rememberMe flag —
while only the cookie MaxAge differs (7 days vs 1 hour in the part_003
handler); this refutes the claim that the expiry instant recorded in the
Session Registry depends on rememberMe. -/
theorem sessionExpiry_rememberMe_cex :
    mlookup loginRemember.2.1 "session-0-u1" = some ⟨"u1", 86400, 0⟩ ∧
    mlookup loginRun.2.1 "session-0-u1" = some ⟨"u1", 86400, 0⟩ ∧
    loginRemember.1.map SetCookie.maxAge = some 604800 ∧
    loginRun.1.map SetCookie.maxAge = some 3600 := by
  exact ⟨rfl, rfl, rfl, rfl⟩

/-- C7 (amended): issuing a session always stores expiry `now + 24h`; the
rememberMe flag never reaches the registry — the registry and user-store
outcome of either Login handler is identical for any two values of the
flag, which only changes the cookie MaxAge. -/
theorem generateSessionToken_fixedTTL
    (sessions : Sessions) (user : User) (now : Nat)
    (userRepo : UserStore) (email password : String) (r1 r2 : Bool) :
    mlookup (AuthServiceImpl.GenerateSessionToken sessions user now).2
      (AuthServiceImpl.GenerateSessionToken sessions user now).1 =
      some ⟨user.id, now + 24 * 3600, now⟩ ∧
    (Handler.Login sessions userRepo email password r1 now).2 =
      (Handler.Login sessions userRepo email password r2 now).2 ∧
    (HandlerV2.Login sessions userRepo email password r1 now).2 =
      (HandlerV2.Login sessions userRepo email password r2 now).2 := by
  refine ⟨?_, ?_, ?_⟩
  · simp [AuthServiceImpl.GenerateSessionToken, mlookup_minsert_self]
  · by_cases hv : trimSpace email = "" ∨ trimSpace password = ""
    · simp [Handler.Login, hv]
    · rcases hA : AuthServiceImpl.Authenticate userRepo email password now with ⟨res, urepo1⟩
      cases res <;> simp [Handler.Login, hv, hA]
  · by_cases hv : email = "" ∨ password = ""
    · simp [HandlerV2.Login, hv]
    · rcases hA : AuthServiceImpl.Authenticate userRepo email password now with ⟨res, urepo1⟩
      cases res <;> simp [HandlerV2.Login, hv, hA]

/-! ### C8 — all-or-nothing dual-index user update -/

/-- C8: when an update changes the email and the new email is already
indexed, the call fails with the duplicate-email error and returns the
store exactly as it was — neither index mutated; when it succeeds with a
changed email, the old email entry is gone and both indexes map the
identifier and the new email to the updated record. -/
theorem userUpdate_emailIndex_atomic
    (r : UserStore) (u existingUser : User)
    (hex : mlookup r.users u.id = some existingUser)
    (hch : existingUser.email ≠ u.email) :
    ((mlookup r.byEmail u.email).isSome →
      MemoryUserRepository.Update r u = (some .emailAlreadyExists, r)) ∧
    (mlookup r.byEmail u.email = none →
      (MemoryUserRepository.Update r u).1 = none ∧
      mlookup (MemoryUserRepository.Update r u).2.users u.id = some u ∧
      mlookup (MemoryUserRepository.Update r u).2.byEmail u.email = some u ∧
      mlookup (MemoryUserRepository.Update r u).2.byEmail existingUser.email = none) := by
  constructor
  · intro hcol
    simp [MemoryUserRepository.Update, hex, hch, hcol]
  · intro hfree
    refine ⟨?_, ?_, ?_, ?_⟩ <;>
      simp [MemoryUserRepository.Update, hex, hch, hfree, mlookup_minsert_self,
        mlookup_minsert_ne _ _ _ _ hch, mlookup_merase_self]

/-- Witness for C8: alice taking bob's email fails atomically; alice taking
a free email succeeds and drops the old index entry. -/
theorem userUpdate_emailIndex_atomic_witness :
    MemoryUserRepository.Update storeAB { alice with email := "bob@x" } =
      (some .emailAlreadyExists, storeAB) ∧
    mlookup (MemoryUserRepository.Update storeAB { alice with email := "alice2@x" }).2.byEmail
      "alice@x" = none := by
  have h1 := userUpdate_emailIndex_atomic storeAB { alice with email := "bob@x" }
    alice rfl (by decide)
  have h2 := userUpdate_emailIndex_atomic storeAB { alice with email := "alice2@x" }
    alice rfl (by decide)
  exact ⟨h1.1 rfl, (h2.2 rfl).2.2.2⟩

/-! ### C9 — verification resolves the user fresh from the Identity Store -/

/-- C9: for a live, unexpired session, verification looks the owner up
fresh: if the owner has been deleted from the user store (in particular by
`MemoryUserRepository.Delete`), verify fails with the not-found error
instead of returning stale data; if the owner is present, verify returns
exactly the record currently stored. -/
theorem verifySession_freshUserLookup
    (sessions : Sessions) (userRepo : UserStore) (token : String)
    (sess : SessionData) (now : Nat)
    (hs : mlookup sessions token = some sess)
    (hlive : now ≤ sess.expiresAt) :
    (mlookup userRepo.users sess.userID = none →
      AuthServiceImpl.VerifySession sessions userRepo token now =
        (.error .userNotFound, sessions)) ∧
    (∀ u, mlookup userRepo.users sess.userID = some u →
      (AuthServiceImpl.VerifySession sessions userRepo token now).1 = .ok u) ∧
    (∀ u, mlookup userRepo.users sess.userID = some u →
      (AuthServiceImpl.VerifySession sessions
        (MemoryUserRepository.Delete userRepo sess.userID).2 token now).1 =
        .error .userNotFound) := by
  have hnot : ¬ now > sess.expiresAt := Nat.not_lt.mpr hlive
  refine ⟨?_, ?_, ?_⟩
  · intro habs
    simp [AuthServiceImpl.VerifySession, hs, hnot, MemoryUserRepository.GetByID, habs]
  · intro u hu
    simp [AuthServiceImpl.VerifySession, hs, hnot, MemoryUserRepository.GetByID, hu]
  · intro u hu
    simp [AuthServiceImpl.VerifySession, hs, hnot, MemoryUserRepository.GetByID,
      MemoryUserRepository.Delete, hu, mlookup_merase_self]

/-- Witness for C9: the same live session verified against an empty user
store, against the seeded store, and against the seeded store after the
owner's deletion. -/
theorem verifySession_freshUserLookup_witness :
    AuthServiceImpl.VerifySession sessions100 ⟨[], []⟩ "t" 10 =
      (.error .userNotFound, sessions100) ∧
    (AuthServiceImpl.VerifySession sessions100 repo0 "t" 10).1 = .ok userTest ∧
    (AuthServiceImpl.VerifySession sessions100
      (MemoryUserRepository.Delete repo0 "u1").2 "t" 10).1 = .error .userNotFound := by
  have h := verifySession_freshUserLookup sessions100 ⟨[], []⟩ "t" ⟨"u1", 100, 0⟩ 10 rfl
    (by decide)
  have h2 := verifySession_freshUserLookup sessions100 repo0 "t" ⟨"u1", 100, 0⟩ 10 rfl
    (by decide)
  exact ⟨h.1 rfl, h2.2.1 userTest rfl, h2.2.2 userTest rfl⟩

/-! ### C10 — the session registry is accessed with no lock at all -/

/-- C10 (code bug witnessed): every session-map operation of
AuthServiceImpl (VerifySession, GenerateSessionToken, InvalidateSession)
performs its map accesses with lock depth zero — the struct owns no mutex —
while the repository operations of MemoryProjectRepository and
MemoryUserRepository bracket every map access with their RWMutex, so the
claimed per-registry lock discipline holds for the stores but not for the
Session Registry. -/
theorem sessionRegistry_unsynchronized_bug :
    underLock verifySessionTrace = false ∧
    underLock generateSessionTokenTrace = false ∧
    underLock invalidateSessionTrace = false ∧
    underLock projectGetByIDTrace = true ∧
    underLock projectUpdateTrace = true ∧
    underLock userUpdateTrace = true := by
  decide

end UnTie
